import Mathlib

/-!
Shallow embedding of `src/userplugins/messageEmojiCache/native.ts`
(a local disk cache for Discord emoji images).

Strings are modelled as Lean `String` / `List Char`; the filesystem as an
explicit state (a list of file paths with contents plus a list of existing
directories); fallible native calls (`mkdirSync`, `fetchBuffer`,
`writeFileSync`, `readdirSync`) are driven by an explicit environment that
says, per path/url, whether the call succeeds and what a fetch returns.
Operations additionally record a trace of the mkdir/fetch/write operations
they attempt, so that claims about "which I/O happened, in which order" can
be stated.
-/

/-- Model of the regex class `[<>:"/\\|?*\x00-\x1f]` (UNSAFE_FILENAME_CHARS),
by code point: control chars 0..31, then < (60), > (62), : (58), quote (34),
slash (47), backslash (92), pipe (124), ? (63), * (42). -/
def isUnsafeChar (c : Char) : Bool :=
  c.toNat ≤ 31 || c.toNat = 60 || c.toNat = 62 || c.toNat = 58 || c.toNat = 34 ||
  c.toNat = 47 || c.toNat = 92 || c.toNat = 124 || c.toNat = 63 || c.toNat = 42

/-- One character of `.replace(UNSAFE_FILENAME_CHARS, "_")` (global flag: applied to every char). -/
def sanitizeChar (c : Char) : Char := if isUnsafeChar c then '_' else c

/-- JavaScript `String.prototype.trim` whitespace (WhiteSpace ∪ LineTerminator),
by code point: tab 9, LF 10, VT 11, FF 12, CR 13, space 32, NBSP 160, 0x1680,
0x2000-0x200A, LS 0x2028, PS 0x2029, 0x202F, 0x205F, 0x3000, BOM 0xFEFF. -/
def isJsWhitespace (c : Char) : Bool :=
  (9 ≤ c.toNat && c.toNat ≤ 13) || c.toNat = 32 || c.toNat = 160 || c.toNat = 5760 ||
  (8192 ≤ c.toNat && c.toNat ≤ 8202) || c.toNat = 8232 || c.toNat = 8233 ||
  c.toNat = 8239 || c.toNat = 8287 || c.toNat = 12288 || c.toNat = 65279

/-- Remove the longest suffix of characters satisfying `p`. -/
def dropTrailingWhile (p : Char → Bool) (l : List Char) : List Char :=
  (l.reverse.dropWhile p).reverse

/-- Model of `.replace(/\.+$/, "")`: the regex (no global flag) has at most one
match, the maximal trailing run of dots, which is removed. -/
def stripTrailingDots (l : List Char) : List Char :=
  dropTrailingWhile (fun c => c == '.') l

/-- Model of `.trim()`: strip JS whitespace from both ends. -/
def jsTrimList (l : List Char) : List Char :=
  dropTrailingWhile isJsWhitespace (l.dropWhile isJsWhitespace)

/-- `sanitizeName` (native.ts lines 24-29): replace unsafe chars by `_`, strip
trailing dots, trim, and fall back to "unknown" when the result is the empty
string (the only falsy string). -/
def sanitizeName (name : String) : String :=
  let cleaned := jsTrimList (stripTrailingDots (name.toList.map sanitizeChar))
  if cleaned.isEmpty then "unknown" else String.mk cleaned

/-- The cache filename built by `cacheEmoji` (native.ts line 72):
`${sanitizeName(emojiName)}-${emojiId}.png`. -/
def mkFileName (emojiName emojiId : String) : String :=
  sanitizeName emojiName ++ "-" ++ emojiId ++ ".png"

example : sanitizeName "My Server" = "My Server" := by decide
example : sanitizeName "" = "unknown" := by decide
example : sanitizeName "a. " = "a." := by decide
example : sanitizeName "a." = "a" := by decide
example : sanitizeName "a/b\\c" = "a_b_c" := by decide

/-- Result shape of `cacheEmoji`: `{ cached: boolean; path: string }`. -/
structure CacheResult where
  cached : Bool
  path : String
deriving Repr, DecidableEq

/-- One element of the `emojis` array passed to `cacheEmojis`. -/
structure EmojiRef where
  id : String
  name : String
  guildName : String
deriving Repr, DecidableEq

/-- Filesystem state: files (path with contents, bytes as naturals) and the
set of existing directories. -/
structure FsState where
  files : List (String × List Nat)
  dirs : List String
deriving Repr, DecidableEq

/-- One attempted native I/O operation, for tracing which side effects a call
performs and in which order. -/
inductive FsEvent where
  | mkdirEv (path : String)
  | fetchEv (url : String)
  | writeEv (path : String)
deriving Repr, DecidableEq

/-- Environment: the external constants (`DATA_DIR`, `process.env.HOME`) and
the behaviour of the fallible native calls. `fetch url = none` models
`fetchBuffer` throwing; `mkdirOk p = false` models `mkdirSync` throwing when
invoked on `p`; likewise `writeOk` / `readdirOk` for `writeFileSync` /
`readdirSync`. -/
structure Env where
  dataDir : String
  home : String
  fetch : String → Option (List Nat)
  mkdirOk : String → Bool
  writeOk : String → Bool
  readdirOk : String → Bool

/-- `path.join` for the two-segment uses in this module. -/
def pathJoin (a b : String) : String := a ++ "/" ++ b

/-- `customDir.replace(/^~/, process.env.HOME ?? "")`: replace one leading `~`. -/
def expandHome (env : Env) (d : String) : String :=
  if d.toList.head? == some '~' then env.home ++ String.mk (d.toList.drop 1) else d

/-- `resolveBaseDir` (native.ts lines 32-38): a truthy (non-empty),
non-whitespace-only `customDir` wins (with `~` expansion), otherwise
`join(DATA_DIR, "emotes")`. -/
def resolveBaseDir (env : Env) (customDir : Option String) : String :=
  match customDir with
  | some d =>
      if d ≠ "" ∧ jsTrimList d.toList ≠ [] then expandHome env d
      else pathJoin env.dataDir "emotes"
  | none => pathJoin env.dataDir "emotes"

def EMOJI_CDN_BASE : String := "https://cdn.discordapp.com/emojis"

/-- `buildEmojiUrl` (native.ts lines 48-50). -/
def buildEmojiUrl (emojiId : String) (size : Nat) : String :=
  EMOJI_CDN_BASE ++ "/" ++ emojiId ++ ".png?size=" ++ toString size ++ "&quality=lossless"

/-- The per-guild directory `join(baseDir, sanitizeName(guildName))`. -/
def computeGuildDir (env : Env) (guildName : String) (customDir : Option String) : String :=
  pathJoin (resolveBaseDir env customDir) (sanitizeName guildName)

/-- The full cache path `join(guildDir, fileName)` computed by `cacheEmoji`. -/
def computeFilePath (env : Env) (guildName emojiName emojiId : String)
    (customDir : Option String) : String :=
  pathJoin (computeGuildDir env guildName customDir) (mkFileName emojiName emojiId)

/-- `Set.add` on the in-memory id set (`cachedEmojiIds`), as a duplicate-free list. -/
def trackerAdd (t : List String) (id : String) : List String :=
  if t.contains id then t else id :: t

def FsState.fileExists (fs : FsState) (p : String) : Bool :=
  fs.files.any (fun e => e.fst == p)

def FsState.dirExists (fs : FsState) (p : String) : Bool :=
  fs.dirs.contains p

def FsState.writeFile (fs : FsState) (p : String) (data : List Nat) : FsState :=
  { fs with files := (p, data) :: fs.files }

def FsState.mkdirRec (fs : FsState) (p : String) : FsState :=
  { fs with dirs := p :: fs.dirs }

/-- Full outcome of one `cacheEmoji` call: the new id set, the new disk state,
the attempted-I/O trace, and the returned value. -/
structure OpResult where
  tracker : List String
  fs : FsState
  trace : List FsEvent
  res : CacheResult
deriving Repr, DecidableEq

/-- The body of `cacheEmoji`'s try block after the directory is ensured
(native.ts lines 84-91, catch at 92-95): build the URL, fetch, write, add the
id. A throwing fetch or write falls to the catch, which returns
`{cached: false, path: ""}` leaving tracker and files as they were. -/
def cacheFetchWrite (env : Env) (tracker : List String) (fs : FsState)
    (emojiId filePath : String) (size : Option Nat) (trace0 : List FsEvent) : OpResult :=
  let sz := size.getD 128
  let url := buildEmojiUrl emojiId sz
  match env.fetch url with
  | none => ⟨tracker, fs, trace0 ++ [FsEvent.fetchEv url], ⟨false, ""⟩⟩
  | some buffer =>
      if env.writeOk filePath then
        ⟨trackerAdd tracker emojiId, fs.writeFile filePath buffer,
          trace0 ++ [FsEvent.fetchEv url, FsEvent.writeEv filePath], ⟨true, filePath⟩⟩
      else ⟨tracker, fs, trace0 ++ [FsEvent.fetchEv url, FsEvent.writeEv filePath], ⟨false, ""⟩⟩

/-- `cacheEmoji` (native.ts lines 56-96). In order: in-memory dedup check;
path computation; filesystem-level cache check (healing); then the try block:
`ensureDir(guildDir)` (mkdir only when the directory is missing; a throwing
mkdir falls to the catch), fetch, write, tracker add. -/
def cacheEmoji (env : Env) (tracker : List String) (fs : FsState)
    (emojiId emojiName guildName : String) (customDir : Option String)
    (size : Option Nat) : OpResult :=
  if tracker.contains emojiId then ⟨tracker, fs, [], ⟨false, ""⟩⟩
  else
    let guildDir := computeGuildDir env guildName customDir
    let filePath := computeFilePath env guildName emojiName emojiId customDir
    if fs.fileExists filePath then
      ⟨trackerAdd tracker emojiId, fs, [], ⟨false, filePath⟩⟩
    else
      if fs.dirExists guildDir then
        cacheFetchWrite env tracker fs emojiId filePath size []
      else if env.mkdirOk guildDir then
        cacheFetchWrite env tracker (fs.mkdirRec guildDir) emojiId filePath size
          [FsEvent.mkdirEv guildDir]
      else ⟨tracker, fs, [FsEvent.mkdirEv guildDir], ⟨false, ""⟩⟩

/-- Outcome of one `cacheEmojis` call. -/
structure BatchResult where
  tracker : List String
  fs : FsState
  trace : List FsEvent
  count : Nat
deriving Repr, DecidableEq

/-- `cacheEmojis` (native.ts lines 102-126): await each `cacheEmoji` in input
order, counting the results with `cached = true`. -/
def cacheEmojis (env : Env) (tracker : List String) (fs : FsState)
    (emojis : List EmojiRef) (customDir : Option String) (size : Option Nat) : BatchResult :=
  match emojis with
  | [] => ⟨tracker, fs, [], 0⟩
  | e :: rest =>
      let r := cacheEmoji env tracker fs e.id e.name e.guildName customDir size
      let b := cacheEmojis env r.tracker r.fs rest customDir size
      ⟨b.tracker, b.fs, r.trace ++ b.trace, (if r.res.cached then 1 else 0) + b.count⟩

/-- Try to match the whole remaining input against `-(\d+)\.png$` anchored at
this position: a hyphen, then the greedy maximal digit run (backtracking can
never help, since giving a digit back makes the literal dot fail on a digit),
then exactly ".png" ending the string. Returns the captured digits. -/
def matchAt : List Char → Option (List Char)
  | [] => none
  | c :: rest =>
      if c = '-' then
        let digits := rest.takeWhile Char.isDigit
        if digits ≠ [] ∧ rest.drop digits.length = ['.', 'p', 'n', 'g'] then some digits
        else none
      else none

/-- JS `file.match` against the regex `-(\d+)\.png$`, capture-group
extraction: the leftmost
position whose suffix matches wins. -/
def findIdSuffix : List Char → Option (List Char)
  | [] => none
  | c :: rest =>
      match matchAt (c :: rest) with
      | some d => some d
      | none => findIdSuffix rest

/-- `match[1]` of matching `file` against the regex `-(\d+)\.png$` as used by `initCache`
(native.ts line 154), `none` when the regex does not match. -/
def matchIdSuffix (file : String) : Option String :=
  (findIdSuffix file.toList).map (fun l => String.mk l)

/-- Inner loop of `initCache` over one guild directory's file listing
(native.ts lines 152-159): each filename matching `-(\d+)\.png$` adds its
captured id to the set and increments the count (even when already present). -/
def scanFiles (tracker : List String) (count : Nat) : List String → List String × Nat
  | [] => (tracker, count)
  | f :: rest =>
      match matchIdSuffix f with
      | some id => scanFiles (trackerAdd tracker id) (count + 1) rest
      | none => scanFiles tracker count rest

/-- Outer loop of `initCache` over the guild directories (native.ts lines
148-160). A throwing `readdirSync(fullGuildDir)` jumps to the catch, aborting
the rest of the loop but keeping the additions and count made so far. -/
def scanGuilds (env : Env) (baseDir : String) (tracker : List String) (count : Nat) :
    List (String × List String) → List String × Nat
  | [] => (tracker, count)
  | (g, files) :: rest =>
      if env.readdirOk (pathJoin baseDir g) then
        let p := scanFiles tracker count files
        scanGuilds env baseDir p.1 p.2 rest
      else (tracker, count)

/-- `initCache` (native.ts lines 132-166). `rootExists` models
`existsSync(baseDir)`; `guildEntries` is the on-disk content of the root when
it exists: its immediate subdirectories (non-directory entries are filtered
out by the code and therefore not modelled), each with its file listing.
`ensureDir(baseDir)` runs OUTSIDE the try block (line 137): when the root is
missing and `mkdirSync` throws, the exception propagates to the caller,
modelled as `Except.error` carrying the unchanged id set. Everything after
`let count = 0` is inside try/catch and degrades to the accumulated count. -/
def initCache (env : Env) (tracker : List String) (rootExists : Bool)
    (guildEntries : List (String × List String)) (customDir : Option String) :
    Except (List String) (List String × Nat) :=
  let baseDir := resolveBaseDir env customDir
  if rootExists = false ∧ env.mkdirOk baseDir = false then Except.error tracker
  else
    let entries := if rootExists then guildEntries else []
    if env.readdirOk baseDir = false then Except.ok (tracker, 0)
    else Except.ok (scanGuilds env baseDir tracker 0 entries)

/-- The id set after an `initCache` call, whether it returned or threw. -/
def initTracker : Except (List String) (List String × Nat) → List String
  | Except.error t => t
  | Except.ok p => p.1

example : matchIdSuffix "Pog-10.png" = some "10" := by decide
example : matchIdSuffix "weird.png" = none := by decide
example : matchIdSuffix "x-7-45.png" = some "45" := by decide
example : matchIdSuffix "abc123-45.png" = some "45" := by decide

/-- Concrete environment where every native call succeeds and every fetch
yields the bytes `[1, 2, 3]`. -/
def envOk : Env :=
  ⟨"data", "", fun _ => some [1, 2, 3], fun _ => true, fun _ => true, fun _ => true⟩

/-- Concrete environment where every fetch throws and the rest succeeds. -/
def envNoFetch : Env :=
  ⟨"data", "", fun _ => none, fun _ => true, fun _ => true, fun _ => true⟩

/-- Concrete environment where every `mkdirSync` throws and the rest succeeds. -/
def envNoMkdir : Env :=
  ⟨"data", "", fun _ => some [1, 2, 3], fun _ => false, fun _ => true, fun _ => true⟩

/-- An empty cache root: no files, only the root directory itself. -/
def fs0 : FsState := ⟨[], ["root"]⟩

theorem pathJoin_ne_empty (a b : String) : pathJoin a b ≠ "" := by
  intro h
  have h2 := congrArg String.data h
  simp [pathJoin, String.data_append] at h2

/-- C1 counterexample: with an empty root and a succeeding fetch,
`cacheEmoji(_, "10", "Pog", "My Server", "root", 128)` does NOT use the path
`root/My_Server/Pog-10.png` claimed by the spec: `sanitizeName` leaves the
space in "My Server" untouched (space is not an unsafe character), so the
returned path differs from the claimed one and no file is created there. -/
theorem cacheEmoji_endToEnd_counterexample :
    (cacheEmoji envOk [] fs0 "10" "Pog" "My Server" (some "root") (some 128)).res.path ≠
      "root/My_Server/Pog-10.png" ∧
    (cacheEmoji envOk [] fs0 "10" "Pog" "My Server" (some "root") (some 128)).fs.fileExists
      "root/My_Server/Pog-10.png" = false := by
  decide

/-- C1 amended: same scenario, but the path is `root/My Server/Pog-10.png`
(the space survives sanitization). The first call creates the guild
directory, fetches, writes the fetched bytes at that path and returns
`{cached: true, path}`; a second identical call returns `{cached: false, path: ""}`. -/
theorem cacheEmoji_endToEnd_amended :
    cacheEmoji envOk [] fs0 "10" "Pog" "My Server" (some "root") (some 128) =
      ⟨["10"],
       ⟨[("root/My Server/Pog-10.png", [1, 2, 3])], ["root/My Server", "root"]⟩,
       [FsEvent.mkdirEv "root/My Server",
        FsEvent.fetchEv "https://cdn.discordapp.com/emojis/10.png?size=128&quality=lossless",
        FsEvent.writeEv "root/My Server/Pog-10.png"],
       ⟨true, "root/My Server/Pog-10.png"⟩⟩ ∧
    (cacheEmoji envOk ["10"]
      ⟨[("root/My Server/Pog-10.png", [1, 2, 3])], ["root/My Server", "root"]⟩
      "10" "Pog" "My Server" (some "root") (some 128)).res = ⟨false, ""⟩ := by
  decide

/-- C5: healing. When the id is untracked but the computed path already exists
on disk, `cacheEmoji` adds the id to the tracker, returns `{cached: false}`
with the non-empty computed path, performs no I/O at all (empty trace: no
fetch, no write, no overwrite) and leaves the filesystem unchanged. -/
theorem cacheEmoji_healing (env : Env) (tracker : List String) (fs : FsState)
    (emojiId emojiName guildName : String) (customDir : Option String) (size : Option Nat)
    (hmem : tracker.contains emojiId = false)
    (hfile : fs.fileExists (computeFilePath env guildName emojiName emojiId customDir) = true) :
    cacheEmoji env tracker fs emojiId emojiName guildName customDir size =
      ⟨emojiId :: tracker, fs, [],
       ⟨false, computeFilePath env guildName emojiName emojiId customDir⟩⟩ ∧
    computeFilePath env guildName emojiName emojiId customDir ≠ "" := by
  have hmem2 : emojiId ∉ tracker := by simpa using hmem
  constructor
  · unfold cacheEmoji
    simp [hmem2, hfile, trackerAdd]
  · exact pathJoin_ne_empty _ _

/-- C5 witness: a concrete untracked id whose file is already on disk. -/
theorem cacheEmoji_healing_witness :
    ([] : List String).contains "10" = false ∧
    (FsState.mk [("data/emotes/g/a-10.png", [7])] []).fileExists
      (computeFilePath envOk "g" "a" "10" none) = true ∧
    cacheEmoji envOk [] ⟨[("data/emotes/g/a-10.png", [7])], []⟩ "10" "a" "g" none none =
      ⟨["10"], ⟨[("data/emotes/g/a-10.png", [7])], []⟩, [],
       ⟨false, computeFilePath envOk "g" "a" "10" none⟩⟩ := by
  refine ⟨by decide, by decide, ?_⟩
  exact (cacheEmoji_healing envOk [] ⟨[("data/emotes/g/a-10.png", [7])], []⟩
    "10" "a" "g" none none (by decide) (by decide)).1

/-- C4: atomicity on failure. For an untracked id with no pre-existing file,
if the step that fails is directory creation (attempted only when the guild
directory is missing), or the fetch, or the write, then `cacheEmoji` returns
`{cached: false, path: ""}` and the tracker is exactly unchanged. -/
theorem cacheEmoji_failure_atomic (env : Env) (tracker : List String) (fs : FsState)
    (emojiId emojiName guildName : String) (customDir : Option String) (size : Option Nat)
    (hmem : tracker.contains emojiId = false)
    (hfile : fs.fileExists (computeFilePath env guildName emojiName emojiId customDir) = false)
    (hfail :
      (fs.dirExists (computeGuildDir env guildName customDir) = false ∧
        env.mkdirOk (computeGuildDir env guildName customDir) = false) ∨
      env.fetch (buildEmojiUrl emojiId (size.getD 128)) = none ∨
      env.writeOk (computeFilePath env guildName emojiName emojiId customDir) = false) :
    (cacheEmoji env tracker fs emojiId emojiName guildName customDir size).res = ⟨false, ""⟩ ∧
    (cacheEmoji env tracker fs emojiId emojiName guildName customDir size).tracker = tracker := by
  have hmem2 : emojiId ∉ tracker := by simpa using hmem
  unfold cacheEmoji cacheFetchWrite
  rcases hfail with ⟨hd, hm⟩ | hf | hw
  · simp [hmem2, hfile, hd, hm]
  · by_cases hd : fs.dirExists (computeGuildDir env guildName customDir) <;>
      by_cases hm : env.mkdirOk (computeGuildDir env guildName customDir) <;>
      simp [hmem2, hfile, hd, hm, hf]
  · by_cases hd : fs.dirExists (computeGuildDir env guildName customDir) <;>
      by_cases hm : env.mkdirOk (computeGuildDir env guildName customDir) <;>
      rcases hfetch : env.fetch (buildEmojiUrl emojiId (size.getD 128)) with _ | buf <;>
      simp [hmem2, hfile, hd, hm, hw, hfetch]

/-- C4 witness: untracked id, empty disk, fetch throws. -/
theorem cacheEmoji_failure_atomic_witness :
    ([] : List String).contains "10" = false ∧
    (cacheEmoji envNoFetch [] fs0 "10" "Pog" "g" (some "root") none).res = ⟨false, ""⟩ ∧
    (cacheEmoji envNoFetch [] fs0 "10" "Pog" "g" (some "root") none).tracker = [] := by
  refine ⟨by decide, ?_⟩
  exact cacheEmoji_failure_atomic envNoFetch [] fs0 "10" "Pog" "g" (some "root") none
    (by decide) (by decide) (Or.inr (Or.inl rfl))

/-- C10: a failed `cacheEmoji` call can still change the filesystem. For an
untracked id with no existing file, when the guild directory is missing, its
creation succeeds, and then the fetch throws, the call returns
`{cached: false, path: ""}` yet the guild directory now exists on disk. -/
theorem cacheEmoji_failedFetch_keepsDir (env : Env) (tracker : List String) (fs : FsState)
    (emojiId emojiName guildName : String) (customDir : Option String) (size : Option Nat)
    (hmem : tracker.contains emojiId = false)
    (hfile : fs.fileExists (computeFilePath env guildName emojiName emojiId customDir) = false)
    (hdir : fs.dirExists (computeGuildDir env guildName customDir) = false)
    (hmk : env.mkdirOk (computeGuildDir env guildName customDir) = true)
    (hf : env.fetch (buildEmojiUrl emojiId (size.getD 128)) = none) :
    (cacheEmoji env tracker fs emojiId emojiName guildName customDir size).res = ⟨false, ""⟩ ∧
    (cacheEmoji env tracker fs emojiId emojiName guildName customDir size).fs.dirExists
      (computeGuildDir env guildName customDir) = true := by
  have hmem2 : emojiId ∉ tracker := by simpa using hmem
  have hdir2 : computeGuildDir env guildName customDir ∉ fs.dirs := by
    simpa [FsState.dirExists] using hdir
  unfold cacheEmoji cacheFetchWrite
  simp [hmem2, hfile, hdir2, hmk, hf, FsState.mkdirRec, FsState.dirExists]

/-- C10 witness: concrete run where the directory creation survives the failed fetch. -/
theorem cacheEmoji_failedFetch_keepsDir_witness :
    (cacheEmoji envNoFetch [] fs0 "10" "Pog" "g" (some "root") none).res = ⟨false, ""⟩ ∧
    (cacheEmoji envNoFetch [] fs0 "10" "Pog" "g" (some "root") none).fs.dirExists
      (computeGuildDir envNoFetch "g" (some "root")) = true := by
  exact cacheEmoji_failedFetch_keepsDir envNoFetch [] fs0 "10" "Pog" "g" (some "root") none
    (by decide) (by decide) (by decide) (by decide) rfl

theorem takeWhile_append_all {α : Type} (p : α → Bool) (A B : List α)
    (hA : ∀ a ∈ A, p a = true) :
    List.takeWhile p (A ++ B) = A ++ List.takeWhile p B := by
  induction A with
  | nil => simp
  | cons a A ih =>
      simp only [List.cons_append, List.takeWhile_cons, hA a (by simp), if_true]
      rw [ih (fun x hx => hA x (by simp [hx]))]

theorem length_takeWhile_append_le {α : Type} (p : α → Bool) (S : List α) (x : α)
    (T : List α) (hx : p x = false) :
    (List.takeWhile p (S ++ x :: T)).length ≤ S.length := by
  induction S with
  | nil => simp [List.takeWhile_cons, hx]
  | cons a S ih =>
      by_cases ha : p a
      · simp only [List.cons_append, List.takeWhile_cons, ha, if_true, List.length_cons]
        omega
      · simp [List.takeWhile_cons, ha]

theorem matchAt_hyphen (id : List Char) (hne : id ≠ []) (hdig : ∀ c ∈ id, c.isDigit = true) :
    matchAt ('-' :: (id ++ ['.', 'p', 'n', 'g'])) = some id := by
  unfold matchAt
  have h1 : (id ++ ['.', 'p', 'n', 'g']).takeWhile Char.isDigit = id := by
    rw [takeWhile_append_all _ _ _ hdig]
    simp [List.takeWhile_cons]
  have h2 : (id ++ ['.', 'p', 'n', 'g']).drop id.length = ['.', 'p', 'n', 'g'] :=
    List.drop_left id _
  simp [h1, h2, hne]

theorem matchAt_long_none (c : Char) (S T : List Char) (h4 : 4 < T.length) :
    matchAt (c :: (S ++ '-' :: T)) = none := by
  unfold matchAt
  by_cases hc : c = '-'
  · simp only [hc, if_true]
    rw [if_neg]
    intro hcond
    have hdropLen := congrArg List.length hcond.2
    have hk : ((S ++ '-' :: T).takeWhile Char.isDigit).length ≤ S.length :=
      length_takeWhile_append_le _ _ _ _ (by decide)
    rw [List.length_drop] at hdropLen
    simp [List.length_append] at hdropLen
    omega
  · simp [hc]

theorem findIdSuffix_build (id : List Char) (hne : id ≠ []) (hdig : ∀ c ∈ id, c.isDigit = true)
    (S : List Char) :
    findIdSuffix (S ++ '-' :: (id ++ ['.', 'p', 'n', 'g'])) = some id := by
  induction S with
  | nil =>
      simp only [List.nil_append]
      rw [findIdSuffix, matchAt_hyphen id hne hdig]
  | cons a S ih =>
      have hpos : 0 < id.length := List.length_pos.mpr hne
      have hnone : matchAt (a :: (S ++ '-' :: (id ++ ['.', 'p', 'n', 'g']))) = none :=
        matchAt_long_none a S _ (by simp [List.length_append]; omega)
      simp only [List.cons_append]
      rw [findIdSuffix, hnone, ih]

/-- C3: the filename built by `cacheEmoji` round-trips through the bootstrap
regex. For every display name and every non-empty all-ASCII-digit id, matching
`${sanitizeName(displayName)}-${id}.png` against the suffix regex
`-(\d+)\.png$` succeeds and the capture equals `id` exactly: the id portion is
never sanitized or altered. -/
theorem filename_id_roundtrip (displayName emojiId : String)
    (hne : emojiId.toList ≠ [])
    (hdig : ∀ c ∈ emojiId.toList, c.isDigit = true) :
    matchIdSuffix (mkFileName displayName emojiId) = some emojiId := by
  have hdata : (mkFileName displayName emojiId).toList =
      (sanitizeName displayName).toList ++ '-' :: (emojiId.toList ++ ['.', 'p', 'n', 'g']) := by
    have hdash : ("-" : String).data = ['-'] := rfl
    have hpng : (".png" : String).data = ['.', 'p', 'n', 'g'] := rfl
    show (mkFileName displayName emojiId).data = _
    simp [mkFileName, String.data_append, hdash, hpng, String.toList]
  have hmk : String.mk emojiId.toList = emojiId := rfl
  rw [matchIdSuffix, hdata, findIdSuffix_build emojiId.toList hne hdig]
  simp [hmk]

/-- C3 witness: concrete round-trip on `Pog-10.png`. -/
theorem filename_id_roundtrip_witness :
    ("10" : String).toList ≠ [] ∧ (∀ c ∈ ("10" : String).toList, c.isDigit = true) ∧
    matchIdSuffix (mkFileName "Pog" "10") = some "10" := by
  refine ⟨by decide, by decide, ?_⟩
  exact filename_id_roundtrip "Pog" "10" (by decide) (by decide)

theorem mk_toList (s : String) : String.mk s.toList = s := rfl

theorem sanitizeChar_safe (c : Char) : isUnsafeChar (sanitizeChar c) = false := by
  unfold sanitizeChar
  by_cases h : isUnsafeChar c
  · rw [if_pos h]; decide
  · rw [if_neg h]; simpa using h

theorem map_sanitizeChar_fixed (l : List Char) (h : ∀ c ∈ l, isUnsafeChar c = false) :
    l.map sanitizeChar = l := by
  induction l with
  | nil => rfl
  | cons a t ih =>
      have ha : sanitizeChar a = a := by
        unfold sanitizeChar
        rw [if_neg]
        simp [h a (by simp)]
      simp [ha, ih (fun c hc => h c (by simp [hc]))]

theorem mem_dropTrailingWhile {p : Char → Bool} {c : Char} {l : List Char}
    (h : c ∈ dropTrailingWhile p l) : c ∈ l := by
  unfold dropTrailingWhile at h
  rw [List.mem_reverse] at h
  exact List.mem_reverse.mp (List.Sublist.mem h (List.dropWhile_sublist p))

theorem mem_jsTrimList {c : Char} {l : List Char} (h : c ∈ jsTrimList l) : c ∈ l := by
  unfold jsTrimList at h
  exact List.Sublist.mem (mem_dropTrailingWhile h) (List.dropWhile_sublist isJsWhitespace)

theorem dropWhile_eq_self_of_head {p : Char → Bool} {l : List Char}
    (h : ∀ c ∈ l.head?, p c = false) : l.dropWhile p = l := by
  cases l with
  | nil => rfl
  | cons a t => simp [List.dropWhile_cons, h a (by simp)]

theorem head_dropWhile_false (p : Char → Bool) (l : List Char) :
    ∀ c ∈ (l.dropWhile p).head?, p c = false := by
  induction l with
  | nil => simp [List.dropWhile]
  | cons a t ih =>
      by_cases ha : p a
      · simpa [List.dropWhile_cons, ha] using ih
      · simp only [List.dropWhile_cons, ha]
        intro c hc
        simp only [Bool.false_eq_true, if_false, List.head?_cons, Option.mem_def,
          Option.some.injEq] at hc
        subst hc
        simpa using ha

theorem dropTrailingWhile_eq_self {p : Char → Bool} {l : List Char}
    (h : ∀ c ∈ l.getLast?, p c = false) : dropTrailingWhile p l = l := by
  unfold dropTrailingWhile
  rw [dropWhile_eq_self_of_head, List.reverse_reverse]
  intro c hc
  rw [List.head?_reverse] at hc
  exact h c hc

theorem getLast_dropTrailingWhile_false (p : Char → Bool) (l : List Char) :
    ∀ c ∈ (dropTrailingWhile p l).getLast?, p c = false := by
  unfold dropTrailingWhile
  intro c hc
  rw [List.getLast?_reverse] at hc
  exact head_dropWhile_false p l.reverse c hc

theorem dropTrailingWhile_decomp (p : Char → Bool) (l : List Char) :
    l = dropTrailingWhile p l ++ (l.reverse.takeWhile p).reverse := by
  unfold dropTrailingWhile
  have h := List.takeWhile_append_dropWhile (p := p) (l := l.reverse)
  have h2 := congrArg List.reverse h
  rw [List.reverse_append, List.reverse_reverse] at h2
  exact h2.symm

theorem head_dropTrailingWhile {p : Char → Bool} {l : List Char}
    (hne : dropTrailingWhile p l ≠ []) :
    (dropTrailingWhile p l).head? = l.head? := by
  have hdec := dropTrailingWhile_decomp p l
  cases hu : dropTrailingWhile p l with
  | nil => exact absurd hu hne
  | cons a t =>
      rw [hu] at hdec
      rw [hdec]
      simp

theorem head_jsTrimList_false (l : List Char) :
    ∀ c ∈ (jsTrimList l).head?, isJsWhitespace c = false := by
  intro c hc
  cases hne : jsTrimList l with
  | nil => rw [hne] at hc; simp at hc
  | cons a t =>
      unfold jsTrimList at hne hc
      rw [head_dropTrailingWhile (by rw [hne]; simp)] at hc
      exact head_dropWhile_false isJsWhitespace l c hc

theorem jsTrimList_fixpoint (l : List Char) : jsTrimList (jsTrimList l) = jsTrimList l := by
  conv_lhs => rw [jsTrimList]
  rw [dropWhile_eq_self_of_head (head_jsTrimList_false l)]
  rw [jsTrimList]
  exact dropTrailingWhile_eq_self
    (getLast_dropTrailingWhile_false isJsWhitespace (l.dropWhile isJsWhitespace))

theorem stripTrailingDots_eq_self {l : List Char}
    (h : l.getLast? ≠ some '.') : stripTrailingDots l = l := by
  unfold stripTrailingDots
  apply dropTrailingWhile_eq_self
  intro c hc
  cases hl : l.getLast? with
  | none => rw [hl] at hc; simp at hc
  | some a =>
      rw [hl] at hc
      simp only [Option.mem_def, Option.some.injEq] at hc
      subst hc
      simp only [beq_eq_false_iff_ne, ne_eq]
      intro hdot
      rw [hdot] at hl
      exact h hl

theorem sanitizeName_fixed (y : String)
    (hsafe : ∀ c ∈ y.toList, isUnsafeChar c = false)
    (hdot : y.toList.getLast? ≠ some '.')
    (hws : jsTrimList y.toList = y.toList)
    (hne : y.toList ≠ []) :
    sanitizeName y = y := by
  unfold sanitizeName
  rw [map_sanitizeChar_fixed _ hsafe, stripTrailingDots_eq_self hdot, hws]
  rw [if_neg (by simpa [List.isEmpty_iff] using hne)]
  exact mk_toList y

/-- C2 counterexample: `sanitizeName` is NOT idempotent. On `"a. "` the first
pass strips no dot (the string ends with a space), then `trim` exposes a
trailing dot, giving `"a."`; a second pass strips that dot, giving `"a"`. -/
theorem sanitizeName_not_idempotent :
    sanitizeName (sanitizeName "a. ") ≠ sanitizeName "a. " := by
  decide

/-- C2 amended: `sanitizeName` is idempotent on every input whose sanitized
form does not end in a dot (equivalently, whenever trimming does not expose a
trailing dot); on such inputs a second application changes nothing. -/
theorem sanitizeName_idempotent_of_no_trailing_dot (x : String)
    (h : (sanitizeName x).toList.getLast? ≠ some '.') :
    sanitizeName (sanitizeName x) = sanitizeName x := by
  by_cases hc : jsTrimList (stripTrailingDots (x.toList.map sanitizeChar)) = []
  · have hx : sanitizeName x = "unknown" := by
      unfold sanitizeName
      rw [if_pos (by simpa [List.isEmpty_iff] using hc)]
    rw [hx]
    decide
  · have hytl : (sanitizeName x).toList =
        jsTrimList (stripTrailingDots (x.toList.map sanitizeChar)) := by
      unfold sanitizeName
      rw [if_neg (by simpa [List.isEmpty_iff] using hc)]
      rfl
    apply sanitizeName_fixed
    · intro c hcmem
      rw [hytl] at hcmem
      have h2 : c ∈ x.toList.map sanitizeChar :=
        mem_dropTrailingWhile (mem_jsTrimList hcmem)
      obtain ⟨a, _, rfl⟩ := List.mem_map.mp h2
      exact sanitizeChar_safe a
    · exact h
    · rw [hytl]
      exact jsTrimList_fixpoint _
    · rw [hytl]
      exact hc

/-- C2 amended witness: a concrete input whose sanitized form has no trailing dot. -/
theorem sanitizeName_idempotent_witness :
    (sanitizeName "abc").toList.getLast? ≠ some '.' ∧
    sanitizeName (sanitizeName "abc") = sanitizeName "abc" := by
  refine ⟨by decide, ?_⟩
  exact sanitizeName_idempotent_of_no_trailing_dot "abc" (by decide)

/-- C6 counterexample: `ensureDir(baseDir)` runs before (outside) the
try/catch of `initCache`, so when the root is missing and `mkdirSync` throws,
`initCache` does NOT catch the error and propagates it to its caller instead
of returning a count. -/
theorem initCache_root_mkdir_throws :
    initCache envNoMkdir [] false [("g", ["a-1.png"])] none = Except.error [] := rfl

/-- C6 amended: whenever the root directory exists, or creating it succeeds,
`initCache` never propagates a failure: for every disk state and every
environment (including ones where any directory listing throws) it returns an
integer count. Only a failing `mkdirSync` on a missing root escapes, because
that call sits outside the try block. -/
theorem initCache_no_throw_when_root_ok (env : Env) (tracker : List String)
    (rootExists : Bool) (guildEntries : List (String × List String))
    (customDir : Option String)
    (h : rootExists = true ∨ env.mkdirOk (resolveBaseDir env customDir) = true) :
    ∃ p, initCache env tracker rootExists guildEntries customDir = Except.ok p := by
  simp only [initCache]
  rcases h with h | h <;> rw [if_neg (by simp [h])] <;> split <;> exact ⟨_, rfl⟩

/-- C6 amended witness: listing failures everywhere, but the root exists. -/
theorem initCache_no_throw_witness :
    ∃ p, initCache
      ⟨"data", "", fun _ => some [1], fun _ => true, fun _ => true, fun _ => false⟩
      [] true [("g", ["a-1.png"])] none = Except.ok p := by
  exact initCache_no_throw_when_root_ok _ [] true [("g", ["a-1.png"])] none (Or.inl rfl)

/-- Number of filenames in a listing that match the bootstrap id pattern. -/
def countMatches (files : List String) : Nat :=
  files.countP (fun f => (matchIdSuffix f).isSome)

theorem scanFiles_count (files : List String) (t : List String) (c : Nat) :
    (scanFiles t c files).2 = c + countMatches files := by
  induction files generalizing t c with
  | nil => simp [scanFiles, countMatches]
  | cons f rest ih =>
      cases hm : matchIdSuffix f with
      | some id =>
          simp only [scanFiles, hm]
          rw [ih]
          simp [countMatches, List.countP_cons, hm]
          omega
      | none =>
          simp only [scanFiles, hm]
          rw [ih]
          simp [countMatches, List.countP_cons, hm]

theorem scanGuilds_count (env : Env) (baseDir : String)
    (entries : List (String × List String)) (t : List String) (c : Nat)
    (h : ∀ e ∈ entries, env.readdirOk (pathJoin baseDir e.1) = true) :
    (scanGuilds env baseDir t c entries).2 =
      c + (entries.map (fun e => countMatches e.2)).sum := by
  induction entries generalizing t c with
  | nil => simp [scanGuilds]
  | cons e rest ih =>
      obtain ⟨g, files⟩ := e
      have hg : env.readdirOk (pathJoin baseDir g) = true := h (g, files) (by simp)
      simp only [scanGuilds, hg, if_true]
      rw [ih _ _ (fun x hx => h x (by simp [hx]))]
      rw [scanFiles_count]
      simp [List.map_cons, List.sum_cons]
      omega

/-- C7 counterexample: the same id `5` under two collection directories makes
`initCache` return 2 while only one distinct id was newly inserted into the
(previously empty) tracker — the returned count is not the number of distinct
ids added. -/
theorem initCache_count_over_counts :
    initCache envOk [] true [("g1", ["a-5.png"]), ("g2", ["b-5.png"])] none =
      Except.ok (["5"], 2) ∧
    (["5"] : List String).length - ([] : List String).length = 1 ∧
    (2 : Nat) ≠ 1 := by
  exact ⟨rfl, by decide, by decide⟩

/-- C7 amended: the count returned by `initCache` equals the number of
filenames matching the id pattern among the scanned listings — each matching
filename increments the count, regardless of whether its id was already
tracked (so duplicate ids across collections are counted multiply). Stated
for fault-free scans (root exists, every listing succeeds). -/
theorem initCache_count_eq_matches (env : Env) (tracker : List String)
    (entries : List (String × List String)) (customDir : Option String)
    (hb : env.readdirOk (resolveBaseDir env customDir) = true)
    (hg : ∀ e ∈ entries, env.readdirOk (pathJoin (resolveBaseDir env customDir) e.1) = true) :
    ∃ t2, initCache env tracker true entries customDir =
      Except.ok (t2, (entries.map (fun e => countMatches e.2)).sum) := by
  simp only [initCache]
  rw [if_neg (by simp)]
  rw [if_neg (by simp [hb])]
  refine ⟨(scanGuilds env (resolveBaseDir env customDir) tracker 0 entries).1, ?_⟩
  have hs := scanGuilds_count env (resolveBaseDir env customDir) entries tracker 0 hg
  rw [if_pos trivial]
  rw [← Nat.zero_add ((entries.map (fun e => countMatches e.2)).sum), ← hs]

/-- C7 amended witness: one matching and one non-matching file give count 1. -/
theorem initCache_count_eq_matches_witness :
    ∃ t2, initCache envOk [] true [("g1", ["a-5.png", "weird.png"])] none =
      Except.ok (t2, ([("g1", ["a-5.png", "weird.png"])].map
        (fun e => countMatches e.2)).sum) := by
  exact initCache_count_eq_matches envOk [] [("g1", ["a-5.png", "weird.png"])] none
    (by decide) (by decide)

theorem cacheEmojis_append (env : Env) (t : List String) (fs : FsState)
    (r1 r2 : List EmojiRef) (cd : Option String) (sz : Option Nat) :
    cacheEmojis env t fs (r1 ++ r2) cd sz =
      (let b1 := cacheEmojis env t fs r1 cd sz
       let b2 := cacheEmojis env b1.tracker b1.fs r2 cd sz
       ⟨b2.tracker, b2.fs, b1.trace ++ b2.trace, b1.count + b2.count⟩) := by
  induction r1 generalizing t fs with
  | nil => simp [cacheEmojis]
  | cons e r1 ih =>
      simp only [List.cons_append, cacheEmojis, List.append_eq]
      rw [ih]
      simp [List.append_assoc, Nat.add_assoc]

/-- C8: the batch coordinator `cacheEmojis` processes its references strictly
in sequence (running any split of the batch first, then the rest from the
resulting state, concatenating traces and adding counts), its result counts
the calls that returned `cached = true`; concretely, a batch of 3 where id
"1" is already tracked and "2", "3" are new (with succeeding fetches) returns
2, and the trace shows exactly two fetch/write pairs, in input order. -/
theorem cacheEmojis_sequential :
    (∀ (env : Env) (t : List String) (fs : FsState) (r1 r2 : List EmojiRef)
        (cd : Option String) (sz : Option Nat),
      cacheEmojis env t fs (r1 ++ r2) cd sz =
        (let b1 := cacheEmojis env t fs r1 cd sz
         let b2 := cacheEmojis env b1.tracker b1.fs r2 cd sz
         ⟨b2.tracker, b2.fs, b1.trace ++ b2.trace, b1.count + b2.count⟩)) ∧
    cacheEmojis envOk ["1"] fs0
        [⟨"1", "a", "g"⟩, ⟨"2", "b", "g"⟩, ⟨"3", "c", "g"⟩] (some "root") none =
      ⟨["3", "2", "1"],
       ⟨[("root/g/c-3.png", [1, 2, 3]), ("root/g/b-2.png", [1, 2, 3])], ["root/g", "root"]⟩,
       [FsEvent.mkdirEv "root/g",
        FsEvent.fetchEv "https://cdn.discordapp.com/emojis/2.png?size=128&quality=lossless",
        FsEvent.writeEv "root/g/b-2.png",
        FsEvent.fetchEv "https://cdn.discordapp.com/emojis/3.png?size=128&quality=lossless",
        FsEvent.writeEv "root/g/c-3.png"],
       2⟩ := by
  exact ⟨cacheEmojis_append, by decide⟩

theorem subset_trackerAdd (t : List String) (id : String) : t ⊆ trackerAdd t id := by
  unfold trackerAdd
  split
  · exact List.Subset.refl t
  · exact List.subset_cons_self id t

theorem cacheFetchWrite_tracker_mono (env : Env) (t : List String) (fs : FsState)
    (emojiId filePath : String) (size : Option Nat) (trace0 : List FsEvent) :
    t ⊆ (cacheFetchWrite env t fs emojiId filePath size trace0).tracker := by
  simp only [cacheFetchWrite]
  split
  · exact List.Subset.refl t
  · split
    · exact subset_trackerAdd t emojiId
    · exact List.Subset.refl t

theorem cacheEmoji_tracker_mono (env : Env) (t : List String) (fs : FsState)
    (emojiId emojiName guildName : String) (cd : Option String) (sz : Option Nat) :
    t ⊆ (cacheEmoji env t fs emojiId emojiName guildName cd sz).tracker := by
  simp only [cacheEmoji]
  split
  · exact List.Subset.refl t
  · split
    · exact subset_trackerAdd t emojiId
    · split
      · exact cacheFetchWrite_tracker_mono env t fs emojiId _ sz []
      · split
        · exact cacheFetchWrite_tracker_mono env t _ emojiId _ sz _
        · exact List.Subset.refl t

theorem cacheEmojis_tracker_mono (env : Env) (t : List String) (fs : FsState)
    (refs : List EmojiRef) (cd : Option String) (sz : Option Nat) :
    t ⊆ (cacheEmojis env t fs refs cd sz).tracker := by
  induction refs generalizing t fs with
  | nil => exact List.Subset.refl t
  | cons e rest ih =>
      simp only [cacheEmojis]
      exact List.Subset.trans
        (cacheEmoji_tracker_mono env t fs e.id e.name e.guildName cd sz) (ih _ _)

theorem scanFiles_tracker_mono (files : List String) (t : List String) (c : Nat) :
    t ⊆ (scanFiles t c files).1 := by
  induction files generalizing t c with
  | nil => exact List.Subset.refl t
  | cons f rest ih =>
      simp only [scanFiles]
      cases matchIdSuffix f with
      | some id => exact List.Subset.trans (subset_trackerAdd t id) (ih _ _)
      | none => exact ih t c

theorem scanGuilds_tracker_mono (env : Env) (baseDir : String)
    (entries : List (String × List String)) (t : List String) (c : Nat) :
    t ⊆ (scanGuilds env baseDir t c entries).1 := by
  induction entries generalizing t c with
  | nil => exact List.Subset.refl t
  | cons e rest ih =>
      obtain ⟨g, files⟩ := e
      simp only [scanGuilds]
      split
      · exact List.Subset.trans (scanFiles_tracker_mono files t c) (ih _ _)
      · exact List.Subset.refl t

theorem initCache_tracker_mono (env : Env) (t : List String) (rootExists : Bool)
    (entries : List (String × List String)) (cd : Option String) :
    t ⊆ initTracker (initCache env t rootExists entries cd) := by
  simp only [initCache]
  split
  · exact List.Subset.refl t
  · split
    · exact List.Subset.refl t
    · exact scanGuilds_tracker_mono env _ _ t 0

/-- C9: the dedup tracker grows monotonically under every operation —
`cacheEmoji`, `cacheEmojis` and `initCache` (whether the latter returns or
throws): every id in the set before the call is still in it afterwards. -/
theorem tracker_monotone :
    (∀ (env : Env) (t : List String) (fs : FsState) (emojiId emojiName guildName : String)
        (cd : Option String) (sz : Option Nat),
      t ⊆ (cacheEmoji env t fs emojiId emojiName guildName cd sz).tracker) ∧
    (∀ (env : Env) (t : List String) (fs : FsState) (refs : List EmojiRef)
        (cd : Option String) (sz : Option Nat),
      t ⊆ (cacheEmojis env t fs refs cd sz).tracker) ∧
    (∀ (env : Env) (t : List String) (rootExists : Bool)
        (entries : List (String × List String)) (cd : Option String),
      t ⊆ initTracker (initCache env t rootExists entries cd)) :=
  ⟨cacheEmoji_tracker_mono, cacheEmojis_tracker_mono, initCache_tracker_mono⟩

